import Mathlib

/-
Verification of the ME_405_Lab0 step-response acquisition pipeline.

Device side (src/step_response.py): an ADC sample is pushed into a bounded
integer queue by a timer interrupt; step_response waits for the queue to
fill, then drains it as CSV-style lines followed by the sentinel "End".

Host side (src/gui.py, get_data): the serial handshake is performed, the
trigger line is written, and the incoming line stream is parsed into two
aligned lists of rationals until a decoded line equals "End".

Machine integers are modelled as Nat / Int and Python floats as Rat.
-/

set_option maxRecDepth 10000

namespace Lab0

/-! ## Device side: constants from step_response.py -/

def QUEUE_SIZE : Nat := 200

def TIMER_INTERVAL : Nat := 10

def ADC_RESOLUTION : Nat := 4096

def MAX_VOLTAGE : Rat := 33 / 10

/-- step_response.py, adc_voltage: (adc_val / ADC_RESOLUTION) * MAX_VOLTAGE. -/
def adc_voltage (adc_val : Nat) : Rat :=
  ((adc_val : Rat) / (ADC_RESOLUTION : Rat)) * MAX_VOLTAGE

/-- Modelled from the spec: the BoundedSampleQueue contract of section 4.1.
The implementation behind it (cqueue.IntQueue, a MicroPython C module) is
not part of this repository; the spec fixes its overflow policy: a push
onto a full queue never blocks, drops the incoming sample, leaves the
stored entries untouched and increments an overflow counter. -/
structure IntQueue where
  capacity : Nat
  data : List Nat
  overflow : Nat
deriving DecidableEq

/-- Modelled from the spec: push with the drop-newest overflow policy. -/
def IntQueue.put (q : IntQueue) (v : Nat) : IntQueue :=
  if q.capacity ≤ q.data.length then
    { q with overflow := q.overflow + 1 }
  else
    { q with data := q.data ++ [v] }

/-- Modelled from the spec: the queue is full when it holds capacity items. -/
def IntQueue.full (q : IntQueue) : Bool :=
  q.capacity ≤ q.data.length

/-- Modelled from the spec: any() is true while the queue is nonempty. -/
def IntQueue.any (q : IntQueue) : Bool :=
  !q.data.isEmpty

/-- step_response.py, timer_int: the ISR reads the ADC and pushes the sample
into the queue.  The ADC is modelled as a function from the tick index to
the sampled value. -/
def timer_int (adc : Nat → Nat) (q : IntQueue) (tick : Nat) : IntQueue :=
  q.put (adc tick)

/-- One line printed to the serial stream by the device, modelled
structurally: either a data line "<timestampMs>,<voltage>" or the
sentinel line "End". -/
inductive Line
  | data (timestampMs : Nat) (voltage : Rat)
  | sentinel
deriving DecidableEq

/-- step_response.py, print_vals: drains the queue, printing one CSV line
per sample; the timestamp starts at 0 and advances by TIMER_INTERVAL per
line.  The queue contents at drain time are passed as a list. -/
def print_vals (t : Nat) : List Nat → List Line
  | [] => []
  | s :: rest => Line.data t (adc_voltage s) :: print_vals (t + TIMER_INTERVAL) rest

/-- step_response.py, line 259: f = 1000 // period_ms.  Python floor
division; period_ms = 0 raises an (untyped) ZeroDivisionError, modelled
as none. -/
def computeFreq (period_ms : Int) : Option Int :=
  if period_ms = 0 then none else some (Int.fdiv 1000 period_ms)

/-- step_response.py, line 211: int_queue = IntQueue(QUEUE_SIZE). -/
def emptyQueue : IntQueue :=
  { capacity := QUEUE_SIZE, data := [], overflow := 0 }

/-- The queue contents after the timer interrupt has fired on ticks
0, 1, ..., ticks-1 (each tick runs timer_int once). -/
def runQueue (adc : Nat → Nat) (ticks : Nat) : IntQueue :=
  (List.range ticks).foldl (timer_int adc) emptyQueue

/-- step_response.py, step_response: computes f = 1000 // period_ms, starts
the timer, busy-waits until the queue is full, stops the timer, drains the
queue with print_vals and finally prints "End".  The pin writes are
hardware effects outside the data model.  ticks is the number of timer
interrupts that fired before the busy-wait observed a full queue; if the
wait can never exit (queue not full) or the frequency computation raises,
the call never completes, modelled as none. -/
def step_response (period_ms : Int) (adc : Nat → Nat) (ticks : Nat) :
    Option (List Line) :=
  match computeFreq period_ms with
  | none => none
  | some _ =>
    let q := runQueue adc ticks
    if q.full then some (print_vals 0 q.data ++ [Line.sentinel]) else none

/-- The timestamps of the data lines of an emitted stream, in order. -/
def dataTimestamps (ls : List Line) : List Nat :=
  ls.filterMap fun l =>
    match l with
    | Line.data t _ => some t
    | Line.sentinel => none

/-- Whether a line is the sentinel line. -/
def Line.isSentinel : Line → Bool
  | Line.sentinel => true
  | Line.data _ _ => false

/-! ## Host side: gui.py, get_data -/

/-- The whitespace characters removed by Python str.strip(). -/
def pyIsSpace (c : Char) : Bool :=
  c = ' ' || c = '\t' || c = '\n' || c = '\r' || c = '\x0b' || c = '\x0c'

/-- Python str.strip() on a character list. -/
def pyStrip (cs : List Char) : List Char :=
  ((cs.dropWhile pyIsSpace).reverse.dropWhile pyIsSpace).reverse

/-- Python str.split(sep) for a one-character separator: splits at every
occurrence, keeping empty segments; the empty string yields one empty
segment. -/
def pySplit (sep : Char) : List Char → List (List Char)
  | [] => [[]]
  | c :: rest =>
    match pySplit sep rest with
    | [] => [[c]]
    | h :: t => if c = sep then [] :: h :: t else (c :: h) :: t

/-- Numeric value of a digit string. -/
def digitsVal (cs : List Char) : Nat :=
  cs.foldl (fun n c => n * 10 + (c.toNat - 48)) 0

/-- Python float() on an unsigned decimal literal: digits with at most one
decimal point and at least one digit.  (The exponent, inf/nan and
underscore forms also accepted by Python never occur in this protocol and
are not modelled.) -/
def pyFloatCore? (cs : List Char) : Option Rat :=
  if cs.all (fun c => c.isDigit || c = '.') then
    match (cs.filter (fun c => c = '.')).length with
    | 0 => if cs.isEmpty then none else some (digitsVal cs : Rat)
    | 1 =>
      let ip := cs.takeWhile (fun c => c != '.')
      let fp := (cs.dropWhile (fun c => c != '.')).tail
      if ip.isEmpty && fp.isEmpty then none
      else some ((digitsVal (ip ++ fp) : Rat) / ((10 : Rat) ^ fp.length))
    | _ => none
  else none

/-- Python float() with an optional leading sign. -/
def pyFloat? (cs : List Char) : Option Rat :=
  match cs with
  | '+' :: rest => pyFloatCore? rest
  | '-' :: rest => (pyFloatCore? rest).map (fun x => -x)
  | _ => pyFloatCore? cs

/-- gui.py line 69: data_str = (line[:-2]).decode('ascii').  Drops the last
two raw bytes and decodes the rest as ASCII; a byte outside the ASCII
range raises UnicodeDecodeError, modelled as none. -/
def stripDecode (raw : List Nat) : Option String :=
  let core := raw.take (raw.length - 2)
  if core.all (fun b => b < 128) then
    some (String.mk (core.map Char.ofNat))
  else none

/-- gui.py lines 70-80: split the decoded line on ',', require at least two
columns, strip and float-convert the first two columns; on any failure the
line contributes nothing. -/
def parseLine? (l : String) : Option (Rat × Rat) :=
  let data := pySplit ',' l.toList
  if 2 ≤ data.length then
    match pyFloat? (pyStrip (data.getD 0 [])), pyFloat? (pyStrip (data.getD 1 [])) with
    | some x, some y => some (x, y)
    | _, _ => none
  else none

/-- Appending the parsed columns of one line to the accumulated dataset
(gui.py lines 77-78); a line that fails to parse appends nothing. -/
def applyLine (l : String) (xs ys : List Rat) : List Rat × List Rat :=
  match parseLine? l with
  | some (x, y) => (xs ++ [x], ys ++ [y])
  | none => (xs, ys)

/-- A line is well formed when it has at least two columns whose first two
fields parse as floats. -/
def wellFormed (l : String) : Bool :=
  (parseLine? l).isSome

/-- The pairs parsed from the well-formed lines, in arrival order. -/
def parsedPairs (ls : List String) : List (Rat × Rat) :=
  ls.filterMap parseLine?

/-- Outcome of the read loop of get_data: the loop processes a line whose
decoded text equals "End" and get_data returns the dataset; or the stream
is exhausted and ser.readline() blocks forever (the port is opened without
a timeout); or a raw line fails ASCII decoding and the uncaught
UnicodeDecodeError aborts the call. -/
inductive LoopOutcome
  | ok (xs ys : List Rat)
  | blocked
  | decodeError
deriving DecidableEq

/-- gui.py lines 60-84: the read loop, over the raw lines remaining in the
stream.  Returns the number of raw lines consumed together with the
outcome.  Each iteration reads a raw line, decodes it, appends its parsed
columns when well formed, and exits after processing a line whose decoded
text equals "End". -/
def loopRun : List (List Nat) → List Rat → List Rat → Nat × LoopOutcome
  | [], _, _ => (0, LoopOutcome.blocked)
  | raw :: rest, xs, ys =>
    match stripDecode raw with
    | none => (1, LoopOutcome.decodeError)
    | some l =>
      let p := applyLine l xs ys
      if l = "End" then (1, LoopOutcome.ok p.1 p.2)
      else
        let r := loopRun rest p.1 p.2
        (r.1 + 1, r.2)

/-- The dataset outcome of the read loop. -/
def readLoop (raws : List (List Nat)) (xs ys : List Rat) : LoopOutcome :=
  (loopRun raws xs ys).2

/-- Transport-level operations performed by get_data. -/
inductive HostEvent
  | resetOutputBuffer
  | writeBytes (bs : List Nat)
  | resetInputBuffer
  | readLine
deriving DecidableEq

/-- gui.py lines 42-87, get_data, over the list of raw lines the device
will deliver: reset the output buffer, write the abort byte 0x03, reset
the input buffer, write 0x02 0x04, read and discard 6 boot lines, write
the fixed trigger line b"3\n" (bytes 51 10), then run the read loop.
Returns the trace of transport operations and the loop outcome. -/
def get_data (raws : List (List Nat)) : List HostEvent × LoopOutcome :=
  let pre : List HostEvent :=
    [HostEvent.resetOutputBuffer, HostEvent.writeBytes [3],
     HostEvent.resetInputBuffer, HostEvent.writeBytes [2, 4]]
  if raws.length < 6 then
    (pre ++ raws.map (fun _ => HostEvent.readLine), LoopOutcome.blocked)
  else
    let r := loopRun (raws.drop 6) [] []
    (pre ++ List.replicate 6 HostEvent.readLine ++ [HostEvent.writeBytes [51, 10]] ++
      List.replicate r.1 HostEvent.readLine, r.2)

/-- The reset/handshake prefix the specification asks for, written from the
spec's words for comparison with the code's trace: discard egress, abort
byte 0x03, discard ingress, bytes 0x02 0x04, six discarded boot-banner
lines, then the caller-supplied trigger parameter sent as a text line. -/
def specHandshakeTrace (param : String) : List HostEvent :=
  [HostEvent.resetOutputBuffer, HostEvent.writeBytes [3],
   HostEvent.resetInputBuffer, HostEvent.writeBytes [2, 4]] ++
    List.replicate 6 HostEvent.readLine ++
    [HostEvent.writeBytes (param.toList.map Char.toNat ++ [10])]

/-- All characters of the string are ASCII. -/
def allAscii (s : String) : Bool :=
  s.toList.all (fun c => c.toNat < 128)

/-- A text line as the device transmits it: its ASCII bytes followed by the
two-byte terminator bytes 13 10. -/
def encodeLine (s : String) : List Nat :=
  s.toList.map Char.toNat ++ [13, 10]

/-! ## Device-side helper lemmas -/

theorem runQueue_succ (adc : Nat → Nat) (n : Nat) :
    runQueue adc (n + 1) = (runQueue adc n).put (adc n) := by
  unfold runQueue
  rw [List.range_succ, List.foldl_append]
  rfl

theorem runQueue_capacity (adc : Nat → Nat) (n : Nat) :
    (runQueue adc n).capacity = QUEUE_SIZE := by
  induction n with
  | zero => rfl
  | succ n ih =>
    rw [runQueue_succ]
    unfold IntQueue.put
    split <;> simp [ih]

theorem runQueue_data (adc : Nat → Nat) (n : Nat) :
    (runQueue adc n).data = (List.range (min n QUEUE_SIZE)).map adc := by
  induction n with
  | zero => rfl
  | succ n ih =>
    have hcap := runQueue_capacity adc n
    have hlen : (runQueue adc n).data.length = min n QUEUE_SIZE := by
      rw [ih, List.length_map, List.length_range]
    rw [runQueue_succ]
    unfold IntQueue.put
    rw [hcap, hlen]
    by_cases h : n < QUEUE_SIZE
    · rw [if_neg (by omega)]
      simp only [ih]
      rw [show min (n + 1) QUEUE_SIZE = n + 1 by omega,
        show min n QUEUE_SIZE = n by omega, List.range_succ, List.map_append]
      rfl
    · rw [if_pos (by omega)]
      simp only [ih]
      rw [show min (n + 1) QUEUE_SIZE = QUEUE_SIZE by omega,
        show min n QUEUE_SIZE = QUEUE_SIZE by omega]

theorem print_vals_range' (adc : Nat → Nat) (n : Nat) :
    ∀ t s : Nat, print_vals t ((List.range' s n).map adc) =
      (List.range' s n).map
        (fun i => Line.data (t + (i - s) * TIMER_INTERVAL) (adc_voltage (adc i))) := by
  induction n with
  | zero => intro t s; rfl
  | succ n ih =>
    intro t s
    rw [List.range'_succ, List.map_cons, List.map_cons]
    show Line.data t (adc_voltage (adc s)) :: print_vals (t + TIMER_INTERVAL) _ = _
    rw [ih (t + TIMER_INTERVAL) (s + 1)]
    congr 1
    · congr 1
      simp
    · apply List.map_congr_left
      intro i hi
      have hs : s + 1 ≤ i := by
        have := (List.mem_range'_1.mp hi).1
        omega
      congr 1
      have : i - s = (i - (s + 1)) + 1 := by omega
      rw [this]
      ring

theorem print_vals_range (adc : Nat → Nat) (n : Nat) :
    print_vals 0 ((List.range n).map adc) =
      (List.range n).map (fun i => Line.data (i * TIMER_INTERVAL) (adc_voltage (adc i))) := by
  rw [List.range_eq_range', print_vals_range' adc n 0 0]
  apply List.map_congr_left
  intro i _
  simp

/-- A completed step_response run emits exactly the capacity-many data lines
followed by the sentinel, with timestamps advancing by TIMER_INTERVAL. -/
theorem stepResponse_some (period_ms : Int) (adc : Nat → Nat) (ticks : Nat)
    (out : List Line) (h : step_response period_ms adc ticks = some out) :
    out = (List.range QUEUE_SIZE).map
        (fun i => Line.data (i * TIMER_INTERVAL) (adc_voltage (adc i))) ++ [Line.sentinel] := by
  unfold step_response at h
  cases hc : computeFreq period_ms with
  | none => rw [hc] at h; cases h
  | some f =>
    rw [hc] at h
    simp only at h
    by_cases hfull : (runQueue adc ticks).full = true
    · rw [if_pos hfull] at h
      have hticks : QUEUE_SIZE ≤ ticks := by
        unfold IntQueue.full at hfull
        rw [runQueue_capacity, runQueue_data] at hfull
        have := of_decide_eq_true hfull
        rw [List.length_map, List.length_range] at this
        omega
      have hdata : (runQueue adc ticks).data = (List.range QUEUE_SIZE).map adc := by
        rw [runQueue_data, show min ticks QUEUE_SIZE = QUEUE_SIZE by omega]
      rw [hdata, print_vals_range] at h
      exact (Option.some_inj.mp h).symm
    · rw [if_neg hfull] at h; cases h

/-- A run with a nonzero period and at least capacity-many timer ticks
completes and emits the full stream. -/
theorem stepResponse_run (period_ms : Int) (hp : period_ms ≠ 0) (adc : Nat → Nat)
    (ticks : Nat) (ht : QUEUE_SIZE ≤ ticks) :
    step_response period_ms adc ticks =
      some ((List.range QUEUE_SIZE).map
        (fun i => Line.data (i * TIMER_INTERVAL) (adc_voltage (adc i))) ++ [Line.sentinel]) := by
  unfold step_response computeFreq
  rw [if_neg hp]
  simp only
  have hfull : (runQueue adc ticks).full = true := by
    unfold IntQueue.full
    rw [runQueue_capacity, runQueue_data]
    apply decide_eq_true
    rw [List.length_map, List.length_range]
    omega
  rw [if_pos hfull]
  have hdata : (runQueue adc ticks).data = (List.range QUEUE_SIZE).map adc := by
    rw [runQueue_data, show min ticks QUEUE_SIZE = QUEUE_SIZE by omega]
  rw [hdata, print_vals_range]

theorem dataTimestamps_stream (n : Nat) (v : Nat → Rat) :
    dataTimestamps ((List.range n).map
        (fun i => Line.data (i * TIMER_INTERVAL) (v i)) ++ [Line.sentinel]) =
      (List.range n).map fun i => i * TIMER_INTERVAL := by
  unfold dataTimestamps
  rw [List.filterMap_append, List.filterMap_map]
  simp only [Function.comp_def]
  rw [show (fun x => some (x * TIMER_INTERVAL)) = some ∘ (fun x : Nat => x * TIMER_INTERVAL)
    from rfl, List.filterMap_eq_map]
  simp

/-! ## Host-side helper lemmas -/

theorem applyLine_End (xs ys : List Rat) : applyLine "End" xs ys = (xs, ys) := by
  unfold applyLine
  rw [show (parseLine? "End" : Option (Rat × Rat)) = none from rfl]

theorem applyLine_none (l : String) (xs ys : List Rat) (h : parseLine? l = none) :
    applyLine l xs ys = (xs, ys) := by
  unfold applyLine
  rw [h]

theorem all_map_gen {α β : Type} (f : α → β) (p : β → Bool) (l : List α) :
    (l.map f).all p = l.all (fun a => p (f a)) := by
  induction l with
  | nil => rfl
  | cons a l ih => simp [List.all_cons, ih]

/-- Encoding a text line and then stripping the two terminator bytes and
decoding recovers the line. -/
theorem stripDecode_encodeLine (s : String) (h : allAscii s = true) :
    stripDecode (encodeLine s) = some s := by
  unfold stripDecode encodeLine
  have hlen : (s.toList.map Char.toNat ++ [13, 10]).length - 2 =
      (s.toList.map Char.toNat).length := by simp
  rw [hlen, List.take_left]
  rw [if_pos (show ((s.toList.map Char.toNat).all fun b => b < 128) = true by
    rw [all_map_gen]; exact h)]
  rw [List.map_map]
  simp only [Function.comp_def]
  rw [List.map_congr_left (fun c _ => Char.ofNat_toNat c), List.map_id']
  rfl

theorem readLoop_nil (xs ys : List Rat) : readLoop [] xs ys = LoopOutcome.blocked := rfl

theorem readLoop_cons_decodeFail (raw : List Nat) (rest : List (List Nat))
    (xs ys : List Rat) (h : stripDecode raw = none) :
    readLoop (raw :: rest) xs ys = LoopOutcome.decodeError := by
  simp [readLoop, loopRun, h]

/-- The loop exits, returning the accumulated dataset unchanged, exactly
when the decoded line equals "End". -/
theorem readLoop_cons_sentinel (raw : List Nat) (rest : List (List Nat))
    (xs ys : List Rat) (h : stripDecode raw = some "End") :
    readLoop (raw :: rest) xs ys = LoopOutcome.ok xs ys := by
  simp [readLoop, loopRun, h, applyLine_End]

/-- A line whose decoded text is not "End" is processed and the loop
continues with the remaining stream. -/
theorem readLoop_cons_continue (raw : List Nat) (rest : List (List Nat))
    (xs ys : List Rat) (l : String) (hdec : stripDecode raw = some l)
    (hne : l ≠ "End") :
    readLoop (raw :: rest) xs ys =
      readLoop rest (applyLine l xs ys).1 (applyLine l xs ys).2 := by
  simp [readLoop, loopRun, hdec, hne]

theorem parsedPairs_length (ls : List String) :
    (parsedPairs ls).length = (ls.filter wellFormed).length := by
  induction ls with
  | nil => rfl
  | cons l rest ih =>
    unfold parsedPairs wellFormed at *
    cases hp : parseLine? l <;>
      simp [List.filterMap_cons, List.filter_cons, hp, ih]

/-- Characterization of a successful run of the read loop over encoded
text lines: the dataset extends the accumulators with the parsed pairs of
the well-formed lines preceding the sentinel, in arrival order. -/
theorem readLoop_ok_parsedPairs (lines : List String) :
    ∀ xs ys a b : List Rat, (∀ l ∈ lines, allAscii l = true) →
      readLoop (lines.map encodeLine) xs ys = LoopOutcome.ok a b →
      a = xs ++ (parsedPairs (lines.takeWhile fun s => s != "End")).map Prod.fst ∧
      b = ys ++ (parsedPairs (lines.takeWhile fun s => s != "End")).map Prod.snd := by
  induction lines with
  | nil =>
    intro xs ys a b _ hrun
    rw [List.map_nil] at hrun
    simp [readLoop, loopRun] at hrun
  | cons l rest ih =>
    intro xs ys a b hascii hrun
    rw [List.map_cons] at hrun
    have hdec : stripDecode (encodeLine l) = some l :=
      stripDecode_encodeLine l (hascii l (List.mem_cons_self l rest))
    by_cases hl : l = "End"
    · subst hl
      rw [readLoop_cons_sentinel _ _ _ _ hdec] at hrun
      cases hrun
      simp [List.takeWhile_cons, parsedPairs]
    · rw [readLoop_cons_continue _ _ _ _ l hdec hl] at hrun
      have hrec := ih _ _ _ _ (fun r hr => hascii r (List.mem_cons_of_mem _ hr)) hrun
      rw [show ((l :: rest).takeWhile fun s => s != "End") =
        l :: (rest.takeWhile fun s => s != "End") by simp [List.takeWhile_cons, hl]]
      cases hp : parseLine? l with
      | some pr =>
        rw [applyLine, hp] at hrec
        refine ⟨?_, ?_⟩
        · rw [hrec.1]
          simp [parsedPairs, List.filterMap_cons, hp]
        · rw [hrec.2]
          simp [parsedPairs, List.filterMap_cons, hp]
      | none =>
        rw [applyLine, hp] at hrec
        refine ⟨?_, ?_⟩
        · rw [hrec.1]
          simp [parsedPairs, List.filterMap_cons, hp]
        · rw [hrec.2]
          simp [parsedPairs, List.filterMap_cons, hp]

/-- The trace of get_data once the stream holds at least the six
boot-banner lines: the eleven handshake operations (which coincide with the
spec's required handshake for the fixed trigger "3") followed by one read
per line the loop consumes. -/
theorem get_data_trace_eq (raws : List (List Nat)) (h6 : ¬ raws.length < 6) :
    (get_data raws).1 = specHandshakeTrace "3" ++
      List.replicate (loopRun (raws.drop 6) [] []).1 HostEvent.readLine := by
  unfold get_data
  rw [if_neg h6]
  rfl

/-! ## Claim theorems: device side -/

/-- C6: a push onto a full BoundedSampleQueue never mutates the stored
entries, drops the incoming sample, increments the overflow counter by
exactly one, and leaves the queue full. -/
theorem put_on_full_queue_drops_sample (q : IntQueue) (v : Nat) (h : q.full = true) :
    (q.put v).data = q.data ∧ (q.put v).overflow = q.overflow + 1 ∧
    (q.put v).full = true := by
  have hc : q.capacity ≤ q.data.length := of_decide_eq_true h
  unfold IntQueue.put
  rw [if_pos hc]
  exact ⟨rfl, rfl, h⟩

/-- C6 witness: with capacity 4, pushing 10, 20, 30, 40, 50 leaves the
contents 10, 20, 30, 40 with the queue full and overflow count 1; the
fifth push drops its sample. -/
theorem put_on_full_queue_drops_sample_witness :
    ([10, 20, 30, 40, 50].foldl IntQueue.put ⟨4, [], 0⟩).data = [10, 20, 30, 40] ∧
    ([10, 20, 30, 40, 50].foldl IntQueue.put ⟨4, [], 0⟩).full = true ∧
    ([10, 20, 30, 40, 50].foldl IntQueue.put ⟨4, [], 0⟩).overflow = 1 ∧
    (([10, 20, 30, 40].foldl IntQueue.put ⟨4, [], 0⟩).put 50).data =
      ([10, 20, 30, 40].foldl IntQueue.put ⟨4, [], 0⟩).data :=
  ⟨by decide, by decide, by decide,
   (put_on_full_queue_drops_sample _ 50 (by decide)).1⟩

/-- C7 counterexample: for period_ms = -5, which is ≤ 0, the
frequency-configuration step of step_response does not fail at all — there
is no InvalidPeriod (or any) validation: it computes the frequency -200
and proceeds. -/
theorem no_invalid_period_rejection_counterexample :
    computeFreq (-5) = some (-200) ∧ computeFreq (-5) ≠ none :=
  ⟨by decide, by decide⟩

/-- C7 amended: step_response performs no period validation and no typed
InvalidPeriod error exists; period_ms = 0 fails before the run with an
untyped ZeroDivisionError at f = 1000 // period_ms (fatal to the call,
not the process), while a negative period_ms is accepted and yields a
nonpositive frequency that is handed on to the timer. -/
theorem period_misconfiguration_behavior (p : Int) (hp : p < 0) :
    computeFreq 0 = none ∧
    computeFreq p = some (Int.fdiv 1000 p) ∧ Int.fdiv 1000 p ≤ 0 := by
  refine ⟨rfl, ?_, Int.fdiv_nonpos (by norm_num) (le_of_lt hp)⟩
  unfold computeFreq
  rw [if_neg (by omega)]

/-- C7 amended witness at period_ms = -5. -/
theorem period_misconfiguration_behavior_witness :
    computeFreq 0 = none ∧
    computeFreq (-5) = some (Int.fdiv 1000 (-5)) ∧ Int.fdiv 1000 (-5) ≤ 0 :=
  period_misconfiguration_behavior (-5) (by decide)

/-- C10: the device configures the timer frequency as the integer floor of
1000 / period_ms; when period_ms does not divide 1000 the configured tick
period differs from period_ms (the tick period 1000 / f equals period_ms
exactly when f * period_ms = 1000), and any period_ms > 1000 yields the
frequency 0. -/
theorem timer_freq_is_floor_division (p : Int) (hp : 0 < p) :
    computeFreq p = some (Int.fdiv 1000 p) ∧
    (¬ p ∣ 1000 → ∀ f, computeFreq p = some f → f * p ≠ 1000) ∧
    (1000 < p → computeFreq p = some 0) := by
  have hne : p ≠ 0 := by omega
  have hcf : computeFreq p = some (Int.fdiv 1000 p) := by
    unfold computeFreq
    rw [if_neg hne]
  refine ⟨hcf, ?_, ?_⟩
  · intro hnd f hf hcontra
    exact hnd ⟨f, by rw [Int.mul_comm] at hcontra; exact hcontra.symm⟩
  · intro hgt
    rw [hcf, Int.fdiv_eq_ediv _ (by omega),
      Int.ediv_eq_zero_of_lt (by norm_num) hgt]

/-- C10 witness: period_ms = 3 gives frequency 333 whose implied tick
period is not 3 ms (333 * 3 ≠ 1000), and period_ms = 1500 gives
frequency 0. -/
theorem timer_freq_is_floor_division_witness :
    computeFreq 3 = some 333 ∧ (333 : Int) * 3 ≠ 1000 ∧ computeFreq 1500 = some 0 :=
  ⟨by decide,
   (timer_freq_is_floor_division 3 (by decide)).2.1 (by decide) 333 (by decide),
   (timer_freq_is_floor_division 1500 (by decide)).2.2 (by decide)⟩

/-- C2 counterexample: with period_ms = 20 a run completes, but the emitted
timestamps are the multiples of the fixed 10 ms interval, not of
period_ms = 20 as the claim requires for every periodMs. -/
theorem timestamps_ignore_period_counterexample :
    (step_response 20 (fun _ => 0) 200).isSome = true ∧
    (step_response 20 (fun _ => 0) 200).map dataTimestamps ≠
      some ((List.range QUEUE_SIZE).map fun i => i * 20) := by
  have h := stepResponse_run 20 (by decide) (fun _ => 0) 200 (by decide)
  rw [h]
  refine ⟨rfl, ?_⟩
  rw [Option.map_some', dataTimestamps_stream]
  intro hcontra
  have h1 := congrArg (fun l => l[1]?) (Option.some.inj hcontra)
  simp [List.getElem?_range, QUEUE_SIZE, TIMER_INTERVAL] at h1

/-- C2 amended: the emitted timestamps advance by the fixed
TIMER_INTERVAL = 10 ms per drained sample, independent of period_ms and of
delivery timing; three drained samples receive the timestamps 0, 10, 20
(equal to i * periodMs exactly when periodMs = 10, the value the program
runs with). -/
theorem timestamps_fixed_interval (period_ms : Int) (adc : Nat → Nat) (ticks : Nat)
    (out : List Line) (h : step_response period_ms adc ticks = some out) :
    dataTimestamps out = (List.range QUEUE_SIZE).map (fun i => i * TIMER_INTERVAL) ∧
    TIMER_INTERVAL = 10 ∧
    (∀ a b c : Nat, dataTimestamps (print_vals 0 [a, b, c]) = [0, 10, 20]) := by
  refine ⟨?_, rfl, ?_⟩
  · rw [stepResponse_some period_ms adc ticks out h, dataTimestamps_stream]
  · intro a b c
    simp [print_vals, dataTimestamps, TIMER_INTERVAL]

/-- C2 amended witness: a completed run with period 10 and 200 ticks. -/
theorem timestamps_fixed_interval_witness :
    dataTimestamps ((List.range QUEUE_SIZE).map
        (fun i => Line.data (i * TIMER_INTERVAL) (adc_voltage 0)) ++ [Line.sentinel]) =
      (List.range QUEUE_SIZE).map (fun i => i * TIMER_INTERVAL) :=
  (timestamps_fixed_interval 10 (fun _ => 0) 200 _
    (stepResponse_run 10 (by decide) (fun _ => 0) 200 (by decide))).1

/-- C3: a completed device acquisition emits exactly QUEUE_SIZE = 200 data
lines, one per drained sample in FIFO order of the tick index, followed by
exactly one sentinel line. -/
theorem step_response_emits_capacity_then_sentinel (period_ms : Int) (adc : Nat → Nat)
    (ticks : Nat) (out : List Line) (h : step_response period_ms adc ticks = some out) :
    out = (List.range QUEUE_SIZE).map
        (fun i => Line.data (i * TIMER_INTERVAL) (adc_voltage (adc i))) ++ [Line.sentinel] ∧
    out.length = QUEUE_SIZE + 1 ∧
    (out.filter Line.isSentinel).length = 1 := by
  have hout := stepResponse_some period_ms adc ticks out h
  refine ⟨hout, ?_, ?_⟩
  · rw [hout]
    simp
  · rw [hout]
    simp [List.filter_append, List.filter_map, Function.comp_def, Line.isSentinel]

/-- C3 witness: a completed run with period 10 and 200 ticks emits 201
lines (200 data lines and the sentinel). -/
theorem step_response_emits_capacity_then_sentinel_witness :
    ((List.range QUEUE_SIZE).map
        (fun i => Line.data (i * TIMER_INTERVAL) (adc_voltage 0)) ++ [Line.sentinel]).length =
      QUEUE_SIZE + 1 :=
  (step_response_emits_capacity_then_sentinel 10 (fun _ => 0) 200 _
    (stepResponse_run 10 (by decide) (fun _ => 0) 200 (by decide))).2.1

/-! ## Claim theorems: host side -/

/-- C1 (code defect): when no raw line of the incoming stream decodes to
the sentinel "End", the read loop of get_data never produces a dataset
(complete or partial); if the stream also decodes cleanly, the loop
consumes every line and then blocks forever inside ser.readline(), because
the serial port is opened without a timeout and no AcquisitionTimeout
mechanism exists anywhere in the code. -/
theorem missing_sentinel_blocks_forever (raws : List (List Nat)) (xs ys : List Rat)
    (h : ∀ raw ∈ raws, stripDecode raw ≠ some "End") :
    (∀ a b, readLoop raws xs ys ≠ LoopOutcome.ok a b) ∧
    ((∀ raw ∈ raws, (stripDecode raw).isSome = true) →
      readLoop raws xs ys = LoopOutcome.blocked) := by
  induction raws generalizing xs ys with
  | nil =>
    refine ⟨fun a b hc => ?_, fun _ => rfl⟩
    simp [readLoop, loopRun] at hc
  | cons raw rest ih =>
    cases hdec : stripDecode raw with
    | none =>
      refine ⟨fun a b hc => ?_, fun hins => ?_⟩
      · rw [readLoop_cons_decodeFail raw rest xs ys hdec] at hc
        cases hc
      · have hs := hins raw (List.mem_cons_self raw rest)
        rw [hdec] at hs
        cases hs
    | some l =>
      have hne : l ≠ "End" := by
        intro he
        exact h raw (List.mem_cons_self raw rest) (he ▸ hdec)
      rw [readLoop_cons_continue raw rest xs ys l hdec hne]
      have ih' := ih (applyLine l xs ys).1 (applyLine l xs ys).2
        (fun r hr => h r (List.mem_cons_of_mem raw hr))
      exact ⟨ih'.1, fun hins => ih'.2 (fun r hr => hins r (List.mem_cons_of_mem raw hr))⟩

/-- C1 witness: a cleanly-decoding stream with no sentinel leaves the read
loop blocked, with no dataset returned. -/
theorem missing_sentinel_blocks_forever_witness :
    readLoop [encodeLine "1,2.5"] [] [] = LoopOutcome.blocked :=
  (missing_sentinel_blocks_forever [encodeLine "1,2.5"] [] [] (by decide)).2 (by decide)

/-- C4: on every successful exit of the read loop, xs and ys have equal
length, both equal to the number of well-formed lines received before the
sentinel, and xs and ys hold exactly the parsed numeric fields of those
lines, in arrival order. -/
theorem acquire_success_postcondition (lines : List String) (xs ys : List Rat)
    (hascii : ∀ l ∈ lines, allAscii l = true)
    (h : readLoop (lines.map encodeLine) [] [] = LoopOutcome.ok xs ys) :
    xs.length = ys.length ∧
    xs.length = ((lines.takeWhile fun s => s != "End").filter wellFormed).length ∧
    xs = (parsedPairs (lines.takeWhile fun s => s != "End")).map Prod.fst ∧
    ys = (parsedPairs (lines.takeWhile fun s => s != "End")).map Prod.snd := by
  obtain ⟨ha, hb⟩ := readLoop_ok_parsedPairs lines [] [] xs ys hascii h
  rw [List.nil_append] at ha hb
  refine ⟨?_, ?_, ha, hb⟩
  · rw [ha, hb, List.length_map, List.length_map]
  · rw [ha, List.length_map, parsedPairs_length]

/-- C4 witness: the lines "0,1.0", "10,1.2", "20,1.4" followed by "End"
yield xs = 0, 10, 20 and ys = 1, 6/5, 7/5 (that is, 1.0, 1.2, 1.4), of
equal length. -/
theorem acquire_success_postcondition_witness :
    readLoop (["0,1.0", "10,1.2", "20,1.4", "End"].map encodeLine) [] [] =
      LoopOutcome.ok [0, 10, 20] [1, 6/5, 7/5] ∧
    ([0, 10, 20] : List Rat).length = ([1, 6/5, 7/5] : List Rat).length := by
  have h1 : parseLine? "0,1.0" = some (0, 1) := by
    simp [parseLine?, pySplit, pyStrip, pyIsSpace, pyFloat?, pyFloatCore?, digitsVal]
  have h2 : parseLine? "10,1.2" = some (10, 6/5) := by
    simp [parseLine?, pySplit, pyStrip, pyIsSpace, pyFloat?, pyFloatCore?, digitsVal]
    norm_num
  have h3 : parseLine? "20,1.4" = some (20, 7/5) := by
    simp [parseLine?, pySplit, pyStrip, pyIsSpace, pyFloat?, pyFloatCore?, digitsVal]
    norm_num
  have hrun : readLoop (["0,1.0", "10,1.2", "20,1.4", "End"].map encodeLine) [] [] =
      LoopOutcome.ok [0, 10, 20] [1, 6/5, 7/5] := by
    simp only [List.map_cons, List.map_nil, readLoop, loopRun,
      show stripDecode (encodeLine "0,1.0") = some "0,1.0" from rfl,
      show stripDecode (encodeLine "10,1.2") = some "10,1.2" from rfl,
      show stripDecode (encodeLine "20,1.4") = some "20,1.4" from rfl,
      show stripDecode (encodeLine "End") = some "End" from rfl,
      applyLine, h1, h2, h3, show (parseLine? "End" : Option (Rat × Rat)) = none from rfl]
    simp
  exact ⟨hrun, (acquire_success_postcondition _ _ _ (by decide) hrun).1⟩

/-- C5: a line received before the sentinel that has fewer than two
comma-separated columns or whose first two columns fail numeric parsing is
discarded: it appends nothing to xs or ys, the loop continues with the
subsequent lines, and no failure is surfaced. -/
theorem malformed_line_skipped (raw : List Nat) (l : String) (rest : List (List Nat))
    (xs ys : List Rat) (hdec : stripDecode raw = some l)
    (hbad : parseLine? l = none) (hne : l ≠ "End") :
    readLoop (raw :: rest) xs ys = readLoop rest xs ys := by
  rw [readLoop_cons_continue raw rest xs ys l hdec hne, applyLine_none l xs ys hbad]

/-- C5 witness: skipping the unparsable line "bad,data" leaves the session
state untouched; the stream "1,2.5", "bad,data", "2,3.5", "End" yields
xs = 1, 2 and ys = 5/2, 7/2, and the stream "5", "3,4.0", "End" (first
line lacking a second column) yields xs = 3, ys = 4. -/
theorem malformed_line_skipped_witness :
    readLoop [encodeLine "bad,data", encodeLine "2,3.5", encodeLine "End"] [1] [5/2] =
      readLoop [encodeLine "2,3.5", encodeLine "End"] [1] [5/2] ∧
    readLoop (["1,2.5", "bad,data", "2,3.5", "End"].map encodeLine) [] [] =
      LoopOutcome.ok [1, 2] [5/2, 7/2] ∧
    readLoop (["5", "3,4.0", "End"].map encodeLine) [] [] =
      LoopOutcome.ok [3] [4] := by
  have h1 : parseLine? "1,2.5" = some (1, 5/2) := by
    simp [parseLine?, pySplit, pyStrip, pyIsSpace, pyFloat?, pyFloatCore?, digitsVal]
    norm_num
  have h2 : parseLine? "2,3.5" = some (2, 7/2) := by
    simp [parseLine?, pySplit, pyStrip, pyIsSpace, pyFloat?, pyFloatCore?, digitsVal]
    norm_num
  have h3 : parseLine? "3,4.0" = some (3, 4) := by
    simp [parseLine?, pySplit, pyStrip, pyIsSpace, pyFloat?, pyFloatCore?, digitsVal]
    norm_num
  refine ⟨malformed_line_skipped _ "bad,data" _ _ _ rfl rfl (by decide), ?_, ?_⟩
  · simp only [List.map_cons, List.map_nil, readLoop, loopRun,
      show stripDecode (encodeLine "1,2.5") = some "1,2.5" from rfl,
      show stripDecode (encodeLine "bad,data") = some "bad,data" from rfl,
      show stripDecode (encodeLine "2,3.5") = some "2,3.5" from rfl,
      show stripDecode (encodeLine "End") = some "End" from rfl,
      applyLine, h1, h2, show (parseLine? "bad,data" : Option (Rat × Rat)) = none from rfl,
      show (parseLine? "End" : Option (Rat × Rat)) = none from rfl]
    simp
  · simp only [List.map_cons, List.map_nil, readLoop, loopRun,
      show stripDecode (encodeLine "5") = some "5" from rfl,
      show stripDecode (encodeLine "3,4.0") = some "3,4.0" from rfl,
      show stripDecode (encodeLine "End") = some "End" from rfl,
      applyLine, h3, show (parseLine? "5" : Option (Rat × Rat)) = none from rfl,
      show (parseLine? "End" : Option (Rat × Rat)) = none from rfl]
    simp

/-- C9: the read loop terminates on a raw line exactly when the line with
its final two bytes removed decodes to "End", in which case the dataset is
returned unchanged (the sentinel line itself contributes nothing to xs or
ys); any other decoded text is processed and the loop continues. -/
theorem sentinel_needs_two_terminator_bytes (raw : List Nat) (rest : List (List Nat))
    (xs ys : List Rat) :
    (stripDecode raw = some "End" →
      readLoop (raw :: rest) xs ys = LoopOutcome.ok xs ys) ∧
    (∀ l, stripDecode raw = some l → l ≠ "End" →
      readLoop (raw :: rest) xs ys =
        readLoop rest (applyLine l xs ys).1 (applyLine l xs ys).2) :=
  ⟨fun h => readLoop_cons_sentinel raw rest xs ys h,
   fun l hdec hne => readLoop_cons_continue raw rest xs ys l hdec hne⟩

/-- C9 witness: the raw bytes of "End" followed by a single terminator byte
(69 110 100 10) decode to "En" after the two-byte strip, so the loop does
not terminate on them and ends up blocked; with the two-byte terminator
(13 10) the same text decodes to "End" and the loop exits with the dataset
unchanged. -/
theorem sentinel_needs_two_terminator_bytes_witness :
    stripDecode [69, 110, 100, 10] = some "En" ∧
    readLoop [[69, 110, 100, 10]] [] [] =
      readLoop [] (applyLine "En" [] []).1 (applyLine "En" [] []).2 ∧
    readLoop [[69, 110, 100, 10]] [] [] = LoopOutcome.blocked ∧
    readLoop [[69, 110, 100, 13, 10]] [] [] = LoopOutcome.ok [] [] :=
  ⟨rfl,
   (sentinel_needs_two_terminator_bytes [69, 110, 100, 10] [] [] []).2 "En" rfl (by decide),
   rfl,
   (sentinel_needs_two_terminator_bytes [69, 110, 100, 13, 10] [] [] []).1 rfl⟩

/-- C8 counterexample: the claim requires the handshake to end by sending
the caller-supplied trigger parameter as a text line, but get_data takes
no trigger parameter and always writes the fixed line "3"; for the
caller-supplied trigger "7" the code's handshake trace differs from the
required one. -/
theorem handshake_caller_trigger_counterexample :
    (get_data (List.replicate 6 [13, 10] ++ [[69, 110, 100, 13, 10]])).1.take 11 ≠
      specHandshakeTrace "7" := by
  decide

/-- C8 amended: every get_data session performs, exactly once and in this
order before the read loop: output-buffer reset, abort byte 0x03,
input-buffer reset, bytes 0x02 0x04, six discarded boot-banner lines, and
the trigger sent as a text line — but the trigger is the hard-coded "3"
rather than a caller-supplied parameter; every subsequent transport
operation is a line read. -/
theorem handshake_fixed_trigger_order (raws : List (List Nat)) (h : 6 ≤ raws.length) :
    (get_data raws).1.take 11 = specHandshakeTrace "3" ∧
    ∀ e ∈ (get_data raws).1.drop 11, e = HostEvent.readLine := by
  rw [get_data_trace_eq raws (by omega)]
  constructor
  · rw [List.take_left' (by decide)]
  · intro e he
    rw [List.drop_left' (by decide)] at he
    exact List.eq_of_mem_replicate he

/-- C8 amended witness: a stream of six boot lines followed by the sentinel
line. -/
theorem handshake_fixed_trigger_order_witness :
    (get_data (List.replicate 6 [13, 10] ++ [[69, 110, 100, 13, 10]])).1.take 11 =
      specHandshakeTrace "3" :=
  (handshake_fixed_trigger_order (List.replicate 6 [13, 10] ++ [[69, 110, 100, 13, 10]])
    (by decide)).1

end Lab0
